import Mathlib

/-!
Verification development for the env-guard validation/coercion engine
(src/src/index.ts).  The TypeScript source is shallowly embedded: JS values
are modelled by an inductive `Value` type, JS numbers by `JsNum`
(finite rational, NaN, positive or negative Infinity), thrown exceptions by `Except`,
and the platform primitives the source relies on (`parseFloat`,
`parseInt`, `JSON.parse`, the WHATWG `URL` constructor, `RegExp.test`)
by explicit executable models, each documented at its definition.
-/

set_option maxRecDepth 4000

namespace EnvGuard

/-- Model of a JavaScript number: a finite (exact) rational, NaN, or an
infinity.  Exact rationals stand in for IEEE doubles; every concrete
number exercised by the theorems below is exactly representable. -/
inductive JsNum where
  | finite (q : Rat)
  | nan
  | inf
  | neginf
deriving DecidableEq

/-- `isNaN(value) || !isFinite(value)` on a JS number. -/
def JsNum.isInvalid : JsNum → Bool
  | .finite _ => false
  | _ => true

/-- Model of a JavaScript runtime value as far as the engine observes it:
strings, numbers, booleans, `undefined`, `null`, and an opaque object
constructor (the engine only ever performs the typeof-object check on it). -/
inductive Value where
  | str (s : String)
  | num (n : JsNum)
  | bool (b : Bool)
  | obj
  | undef
  | null
deriving DecidableEq

/-- The closed error taxonomy carried on every ValidationError. -/
inductive ErrType where
  | requiredError
  | formatError
  | transformError
  | typeError
deriving DecidableEq

/-- Model of the `ValidationError` class fields (also used for the plain
`ValidationErrorResult` objects pushed into the `errors` list of a result,
whose shape is identical). -/
structure VError where
  field : String
  message : String
  value : Value
  expected : Option String
  received : Option String
  envVarName : String
  etype : ErrType
deriving DecidableEq

/-- The `ValidationError` constructor: `envVarName` defaults to `field`,
`type` defaults to FormatError (source lines 206-223).  Arguments are
positional, exactly as at the TypeScript call sites. -/
def mkValidationError (field message : String) (value : Value)
    (expected received envVarName : Option String) (etype : Option ErrType) : VError :=
  { field := field, message := message, value := value, expected := expected,
    received := received, envVarName := envVarName.getD field,
    etype := etype.getD .formatError }

/-- Model of JS `String.prototype.trim`: strip whitespace from both
ends. -/
def jsTrim (s : String) : String :=
  String.mk (((s.data.dropWhile Char.isWhitespace).reverse.dropWhile Char.isWhitespace).reverse)

/-- Model of JS `String.prototype.toUpperCase` (ASCII). -/
def jsToUpperStr (s : String) : String :=
  String.mk (s.data.map Char.toUpper)

/-- Model of JS `String.prototype.toLowerCase` (ASCII). -/
def jsToLowerStr (s : String) : String :=
  String.mk (s.data.map Char.toLower)

/-- Split a character list at every occurrence of a separator character
(`String.prototype.split` with a one-character separator). -/
def splitOnChar (c : Char) : List Char → List (List Char)
  | [] => [[]]
  | x :: xs =>
    if x = c then [] :: splitOnChar c xs
    else
      match splitOnChar c xs with
      | [] => [[x]]
      | g :: gs => (x :: g) :: gs

/-- Split a character list at every non-overlapping occurrence of a
double colon. -/
def splitOnDColon : List Char → List (List Char)
  | [] => [[]]
  | ':' :: ':' :: xs =>
    [] :: splitOnDColon xs
  | x :: xs =>
    match splitOnDColon xs with
    | [] => [[x]]
    | g :: gs => (x :: g) :: gs

/-- Digits-as-chars to a natural number. -/
def digitsToNat (l : List Char) : Nat :=
  l.foldl (fun acc c => acc * 10 + (c.toNat - 48)) 0

/-- Platform model of JavaScript `parseFloat` (decimal-exact): skip
leading whitespace, optional sign, recognise an `Infinity` prefix, else
take the longest prefix of the form `digits [. digits] [e|E [sign] digits]`;
NaN when no digit occurs before the exponent. -/
def jsParseFloat (s : String) : JsNum :=
  let cs0 := s.data.dropWhile Char.isWhitespace
  let signAndRest : Bool × List Char :=
    match cs0 with
    | '-' :: rest => (true, rest)
    | '+' :: rest => (false, rest)
    | _ => (false, cs0)
  let neg := signAndRest.1
  let cs := signAndRest.2
  if cs.take 8 = "Infinity".data then
    if neg then .neginf else .inf
  else
    let ip := cs.span Char.isDigit
    let ipart := ip.1
    let fp : List Char × List Char :=
      match ip.2 with
      | '.' :: rest => rest.span Char.isDigit
      | other => ([], other)
    let fpart := fp.1
    if ipart.isEmpty ∧ fpart.isEmpty then .nan
    else
      let expPart : Int :=
        match fp.2 with
        | c :: rest =>
          if c = 'e' ∨ c = 'E' then
            let es : Bool × List Char :=
              match rest with
              | '-' :: r => (true, r)
              | '+' :: r => (false, r)
              | _ => (false, rest)
            let ed := es.2.span Char.isDigit
            if ed.1.isEmpty then 0
            else if es.1 then -(digitsToNat ed.1 : Int) else (digitsToNat ed.1 : Int)
          else 0
        | [] => 0
      let mantissa : Rat := (digitsToNat ipart : Rat) +
        (digitsToNat fpart : Rat) / (10 : Rat) ^ fpart.length
      let v := mantissa * (10 : Rat) ^ expPart
      .finite (if neg then -v else v)

/-- Platform model of JavaScript `parseInt(s, 10)`: skip leading
whitespace, optional sign, longest digit prefix; NaN when none. -/
def jsParseInt (s : String) : JsNum :=
  let cs0 := s.data.dropWhile Char.isWhitespace
  let signAndRest : Bool × List Char :=
    match cs0 with
    | '-' :: rest => (true, rest)
    | '+' :: rest => (false, rest)
    | _ => (false, cs0)
  let dp := signAndRest.2.span Char.isDigit
  if dp.1.isEmpty then .nan
  else
    let n : Rat := (digitsToNat dp.1 : Rat)
    .finite (if signAndRest.1 then -n else n)

/-- Platform model of JS number-to-string rendering: exact for integers
(the only case any theorem below touches); non-integral rationals are
rendered as numerator/denominator. -/
def JsNum.render : JsNum → String
  | .finite q => if q.den = 1 then toString q.num else toString q.num ++ "/" ++ toString q.den
  | .nan => "NaN"
  | .inf => "Infinity"
  | .neginf => "-Infinity"

/-- `String(value)` / `value.toString()` on the values the engine can hold. -/
def jsToString : Value → String
  | .str s => s
  | .num n => n.render
  | .bool b => if b then "true" else "false"
  | .obj => "[object Object]"
  | .undef => "undefined"
  | .null => "null"

/-- The four coercible target types of `coerceValue` (source line 278). -/
inductive CoerceType where
  | string
  | number
  | boolean
  | port
deriving DecidableEq

/-- `coerceValue` (source lines 278-345), with thrown `ValidationError`s
modelled as `Except.error`.  Note the positional constructor calls: the
sixth argument, the string TypeError, lands in the `envVarName`
parameter, so the `type` of those errors defaults to FormatError. -/
def coerceValue (value : Value) (t : CoerceType) : Except VError Value :=
  match value with
  | .undef => .ok .undef
  | .null => .ok .null
  | .obj => .error (mkValidationError "value" "Cannot coerce object to primitive type"
      .obj (some "string, number, or boolean") (some "object") (some "TypeError") none)
  | v =>
    match t with
    | .string =>
      .ok (match v with
        | .str s => .str (jsTrim s)
        | other => .str (jsToString other))
    | .number =>
      match v with
      | .num n =>
        if n.isInvalid then
          .error (mkValidationError "value" "Number value is invalid (NaN or infinite)"
            (.num n) (some "valid number") none none none)
        else .ok (.num n)
      | other =>
        match jsParseFloat (jsToString other) with
        | .finite q => .ok (.num (.finite q))
        | _ => .error (mkValidationError "value" "Cannot coerce to number" other
            (some "numeric string") (some (jsToString other)) (some "TypeError") none)
    | .boolean =>
      match v with
      | .bool b => .ok (.bool b)
      | other =>
        let stringValue := jsTrim (jsToLowerStr (jsToString other))
        if ["true", "1", "yes", "on"].contains stringValue then .ok (.bool true)
        else if ["false", "0", "no", "off"].contains stringValue then .ok (.bool false)
        else .error (mkValidationError "value" "Cannot coerce to boolean" other
          (some "true/false/1/0/yes/no/on/off") (some stringValue) (some "TypeError") none)
    | .port =>
      match v with
      | .num n =>
        if n.isInvalid then
          .error (mkValidationError "value" "Port value is invalid (NaN or infinite)"
            (.num n) (some "valid number") none none none)
        else .ok (.num n)
      | other =>
        match jsParseFloat (jsToString other) with
        | .finite q => .ok (.num (.finite q))
        | _ => .error (mkValidationError "value" "Cannot coerce to port number" other
            (some "numeric string") (some (jsToString other)) (some "TypeError") none)

/-- Validator outcome: `true` or a human-readable failure reason string
(the `boolean | string` return type of the built-in validators). -/
inductive VOut where
  | tru
  | msg (s : String)
deriving DecidableEq

/-- A thrown JS exception: either a `ValidationError` of the library itself,
another `Error` carrying a message, or a thrown non-`Error` value. -/
inductive ThrownErr where
  | verr (e : VError)
  | err (message : String)
  | nonErr
deriving DecidableEq

/-- The message of a thrown value when it is an Error, else the given
fallback text. -/
def ThrownErr.messageOr (t : ThrownErr) (fallback : String) : String :=
  match t with
  | .verr e => e.message
  | .err m => m
  | .nonErr => fallback

/-- A compiled `RegExp` is observed by the engine only through
`pattern.test(string)`; it is modelled as that test function. -/
def Pattern : Type := String → Bool

/-- `validateRegex` (source lines 498-508).  The `pattern` argument is
optional here because `validateEnv` invokes `validators.regex` with a
single argument, making `pattern` `undefined`; `pattern.test` then throws
a platform `TypeError` (modelled message, apostrophes elided). -/
def validateRegexM (value : Value) (pattern : Option Pattern) : Except ThrownErr VOut :=
  match value with
  | .str s =>
    match pattern with
    | some p =>
      if ¬ p s then pure (.msg "Value does not match the required pattern")
      else pure .tru
    | none => throw (.err "Cannot read properties of undefined (reading test)")
  | _ => pure (.msg "Value must be a string for regex validation")

/-- `validators.string` (source lines 524-538). -/
def stringValidator (value : Value) (minLength maxLength : Option Nat) : VOut :=
  match value with
  | .str s =>
    match minLength with
    | some n =>
      if s.length < n then .msg ("String must be at least " ++ toString n ++ " characters long")
      else
        match maxLength with
        | some m =>
          if s.length > m then .msg ("String must be no more than " ++ toString m ++ " characters long")
          else .tru
        | none => .tru
    | none =>
      match maxLength with
      | some m =>
        if s.length > m then .msg ("String must be no more than " ++ toString m ++ " characters long")
        else .tru
      | none => .tru
  | _ => .msg "Value must be a string"

/-- `value < bound` on a JS number against a finite bound. -/
def JsNum.ltQ : JsNum → Rat → Bool
  | .finite a, q => a < q
  | .nan, _ => false
  | .inf, _ => false
  | .neginf, _ => true

/-- `value > bound` on a JS number against a finite bound. -/
def JsNum.gtQ : JsNum → Rat → Bool
  | .finite a, q => a > q
  | .nan, _ => false
  | .inf, _ => true
  | .neginf, _ => false

/-- `validators.number` (source lines 539-553). -/
def numberValidator (value : Value) (min max : Option Rat) : VOut :=
  match value with
  | .num n =>
    match n with
    | .nan => .msg "Value must be a valid number"
    | other =>
      match min with
      | some mn =>
        if other.ltQ mn then .msg ("Number must be at least " ++ (JsNum.finite mn).render)
        else
          match max with
          | some mx =>
            if other.gtQ mx then .msg ("Number must be no more than " ++ (JsNum.finite mx).render)
            else .tru
          | none => .tru
      | none =>
        match max with
        | some mx =>
          if other.gtQ mx then .msg ("Number must be no more than " ++ (JsNum.finite mx).render)
          else .tru
        | none => .tru
  | _ => .msg "Value must be a valid number"

/-- `validators.boolean` (source lines 554-559). -/
def booleanValidator (value : Value) : VOut :=
  match value with
  | .bool _ => .tru
  | _ => .msg "Value must be a boolean"

/-- URL component record, restricted to the two components
`validateUrl` reads. -/
structure UrlRec where
  protocol : String
  hostname : String
deriving DecidableEq

/-- Scheme characters after the first: letters, digits, plus, minus, dot. -/
def schemeChar (c : Char) : Bool := c.isAlphanum ∨ c = '+' ∨ c = '-' ∨ c = '.'

/-- Platform model of the WHATWG URL constructor, simplified: a parse
succeeds only when the input starts with a scheme (one ASCII letter,
then scheme characters) followed by a colon, exactly as the standard
requires of an absolute URL; `protocol` is the lower-cased scheme with
the trailing colon, hence never empty.  The hostname is the authority
after an optional userinfo and before an optional port (IPv6 bracket
syntax and special-scheme host requirements are not modelled; the model
accepts some inputs the platform rejects, never the converse component
shapes the engine relies on).  `urlHostname` extracts the host from
what follows the scheme colon. -/
def urlHostname (tail : List Char) : String :=
  match tail with
  | '/' :: '/' :: after =>
    let auth := after.takeWhile (fun ch => ¬ (ch = '/' ∨ ch = '?' ∨ ch = '#'))
    let hostPort := if auth.contains '@' then (auth.reverse.takeWhile (fun ch => ch ≠ '@')).reverse else auth
    String.mk ((hostPort.takeWhile (fun ch => ch ≠ ':')).map Char.toLower)
  | _ => ""

def parseUrl (s : String) : Option UrlRec :=
  match s.data with
  | [] => none
  | c :: rest =>
    if ¬ c.isAlpha then none
    else
      match rest.dropWhile schemeChar with
      | ':' :: tail =>
        some { protocol := String.mk ((c :: rest.takeWhile schemeChar).map Char.toLower) ++ ":",
               hostname := urlHostname tail }
      | _ => none

/-- Sanity anchor for the URL model: a well-formed absolute URL parses
with its lower-cased scheme and host. -/
theorem parseUrl_example :
    parseUrl "HTTP://user@Example.com:8080/path" =
      some { protocol := "http:", hostname := "example.com" } := by decide

/-- Options of `validateUrl`. -/
structure UrlOptions where
  protocols : Option (List String) := none
  requireProtocol : Option Bool := none

/-- `validateUrl` (source lines 354-385). -/
def validateUrlM (value : Value) (options : Option UrlOptions) : VOut :=
  match value with
  | .str url =>
    let trimmedUrl := jsTrim url
    if trimmedUrl = "" then .msg "URL cannot be empty"
    else
      match parseUrl trimmedUrl with
      | none => .msg "Invalid URL format"
      | some parsedUrl =>
        let protocols := (options.bind (fun o => o.protocols)).getD ["http:", "https:", "ftp:"]
        if ¬ protocols.contains parsedUrl.protocol then
          .msg ("Protocol must be one of: " ++ String.intercalate ", " protocols)
        else if (options.bind (fun o => o.requireProtocol)) ≠ some false ∧ parsedUrl.protocol = "" then
          .msg "URL must include protocol (http://, https://, etc.)"
        else if parsedUrl.hostname ≠ "" ∧ parsedUrl.hostname.length > 253 then
          .msg "Domain name is too long"
        else .tru
  | _ => .msg "Value must be a string"

/-- `validatePort` (source lines 390-405): strings go through
`parseInt(port, 10)` first, then the number must be an integer in
1..65535. -/
def validatePortM (value : Value) : VOut :=
  let port : Value :=
    match value with
    | .str s => .num (jsParseInt s)
    | other => other
  match port with
  | .num n =>
    match n with
    | .nan => .msg "Port must be a valid number"
    | .inf => .msg "Port must be an integer between 1 and 65535"
    | .neginf => .msg "Port must be an integer between 1 and 65535"
    | .finite q =>
      if q.den = 1 ∧ 1 ≤ q ∧ q ≤ 65535 then .tru
      else .msg "Port must be an integer between 1 and 65535"
  | _ => .msg "Port must be a valid number"

/-- Characters allowed in the local part of the email pattern
(source line 420); apostrophe, backtick and braces written by code
point. -/
def emailLocalChar (c : Char) : Bool :=
  c.isAlphanum ∨
  c ∈ ['.', '!', '#', '$', '%', '&', '*', '+', '/', '=', '?', '^', '_', '~', '-', '|',
       Char.ofNat 39, Char.ofNat 96, Char.ofNat 123, Char.ofNat 125]

/-- One domain label of the email pattern: 1..63 characters, first and
last alphanumeric, interior alphanumeric or hyphen. -/
def domainLabelOk (l : List Char) : Bool :=
  decide (1 ≤ l.length) && decide (l.length ≤ 63) &&
  (match l.head? with
   | some c => c.isAlphanum
   | none => false) &&
  (match l.getLast? with
   | some c => c.isAlphanum
   | none => false) &&
  l.all (fun c => c.isAlphanum ∨ c = '-')

/-- The anchored email regular expression of source line 420, as a
decidable checker: since the at sign occurs in neither character class,
a match is exactly one split `local@domain` with a non-empty local part
of local characters and a dot-separated list of valid labels. -/
def emailPatternTest (s : String) : Bool :=
  match splitOnChar '@' s.data with
  | [localPart, domain] =>
    !localPart.isEmpty && localPart.all emailLocalChar &&
    (splitOnChar '.' domain).all domainLabelOk
  | _ => false

/-- `validateEmail` (source lines 410-436). -/
def validateEmailM (value : Value) : VOut :=
  match value with
  | .str email =>
    let trimmedEmail := jsTrim email
    if trimmedEmail = "" then .msg "Email cannot be empty"
    else if ¬ emailPatternTest trimmedEmail then .msg "Invalid email format"
    else if trimmedEmail.data.contains ' ' then .msg "Email cannot contain spaces"
    else if (trimmedEmail.data.filter (fun c => c = '@')).length ≠ 1 then
      .msg "Email must contain exactly one @ symbol"
    else .tru
  | _ => .msg "Email must be a string"

/-- IP version restriction option. -/
inductive IpVersion where
  | ipv4
  | ipv6
  | any
deriving DecidableEq

/-- One dotted-quad octet of the IPv4 pattern (source line 453): digits
only, value 0..255, no leading zero except the single digit 0. -/
def ipv4OctetOk (l : List Char) : Bool :=
  decide (l ≠ []) && decide (l.length ≤ 3) && l.all Char.isDigit &&
  (match l with
   | '0' :: rest => rest.isEmpty
   | _ => true) &&
  decide (digitsToNat l ≤ 255)

/-- The IPv4 pattern of source line 453 as a decidable checker. -/
def ipv4Test (s : String) : Bool :=
  let parts := splitOnChar '.' s.data
  decide (parts.length = 4) && parts.all ipv4OctetOk

/-- A 1..4 digit hexadecimal group. -/
def hexGroupOk (l : List Char) : Bool :=
  decide (1 ≤ l.length) && decide (l.length ≤ 4) &&
  l.all (fun c => c.isDigit ∨ ('a' ≤ c ∧ c ≤ 'f') ∨ ('A' ≤ c ∧ c ≤ 'F'))

/-- The IPv6 pattern of source line 455 as a decidable checker: its
alternatives amount to either eight colon-separated hex groups, or a
single double-colon with L left groups and R right groups, L + R at
most 7. -/
def ipv6Test (s : String) : Bool :=
  match splitOnDColon s.data with
  | [whole] =>
    let gs := splitOnChar ':' whole
    decide (gs.length = 8) && gs.all hexGroupOk
  | [left, right] =>
    let lg := if left.isEmpty then [] else splitOnChar ':' left
    let rg := if right.isEmpty then [] else splitOnChar ':' right
    lg.all hexGroupOk && rg.all hexGroupOk &&
    decide (lg.length + rg.length ≤ 7)
  | _ => false

/-- `validateIp` (source lines 441-472). -/
def validateIpM (value : Value) (version : Option IpVersion) : VOut :=
  match value with
  | .str ip =>
    let trimmedIp := jsTrim ip
    if trimmedIp = "" then .msg "IP cannot be empty"
    else
      let ver := version.getD .any
      if (ver = .ipv4 ∨ ver = .any) ∧ ipv4Test trimmedIp then .tru
      else if (ver = .ipv6 ∨ ver = .any) ∧ ipv6Test trimmedIp then .tru
      else if ver = .ipv4 then .msg "Invalid IPv4 address format"
      else if ver = .ipv6 then .msg "Invalid IPv6 address format"
      else .msg "Invalid IP address format (must be IPv4 or IPv6)"
  | _ => .msg "IP must be a string"

/-- JSON insignificant whitespace. -/
def jsonWs (c : Char) : Bool := c = ' ' ∨ c = '\t' ∨ c = '\n' ∨ c = '\r'

/-- Rest of a JSON string after the opening quote (escape validity
simplified: a backslash skips the next character). -/
def jsonStringRest : List Char → Option (List Char)
  | [] => none
  | '"' :: rest => some rest
  | '\\' :: _ :: rest => jsonStringRest rest
  | _ :: rest => jsonStringRest rest

/-- Optional exponent part of a JSON number. -/
def jsonExpRest (cs : List Char) : Option (List Char) :=
  match cs with
  | c :: rest =>
    if c = 'e' ∨ c = 'E' then
      let rest2 :=
        match rest with
        | '-' :: r => r
        | '+' :: r => r
        | other => other
      let d := rest2.span Char.isDigit
      if d.1.isEmpty then none else some d.2
    else some cs
  | [] => some []

/-- Optional fraction part of a JSON number, then exponent. -/
def jsonFracRest (cs : List Char) : Option (List Char) :=
  match cs with
  | '.' :: rest =>
    let d := rest.span Char.isDigit
    if d.1.isEmpty then none else jsonExpRest d.2
  | other => jsonExpRest other

/-- Integer part of a JSON number after the optional minus sign: a
single 0 or a nonzero digit followed by digits. -/
def jsonNumRest (cs : List Char) : Option (List Char) :=
  match cs with
  | '0' :: rest => jsonFracRest rest
  | c :: rest => if c.isDigit then jsonFracRest (rest.dropWhile Char.isDigit) else none
  | [] => none

/-- Expect a literal suffix. -/
def stripLit (p : List Char) (cs : List Char) : Option (List Char) :=
  if cs.take p.length = p then some (cs.drop p.length) else none

/-- Parsing mode for the fuel-based JSON grammar walker. -/
inductive JMode where
  | value
  | members (first : Bool)
  | elems (first : Bool)

/-- Fuel-based JSON grammar checker: parses one construct and returns
the remaining input.  Platform model of `JSON.parse` acceptance. -/
def jsonP : Nat → JMode → List Char → Option (List Char)
  | 0, _, _ => none
  | fuel + 1, .value, cs =>
    match cs.dropWhile jsonWs with
    | [] => none
    | c :: rest =>
      if c = '"' then jsonStringRest rest
      else if c = Char.ofNat 123 then jsonP fuel (.members true) rest
      else if c = '[' then jsonP fuel (.elems true) rest
      else if c = 't' then stripLit "rue".data rest
      else if c = 'f' then stripLit "alse".data rest
      else if c = 'n' then stripLit "ull".data rest
      else if c = '-' then jsonNumRest rest
      else jsonNumRest (c :: rest)
  | fuel + 1, .members first, cs =>
    match cs.dropWhile jsonWs with
    | [] => none
    | c :: rest =>
      if c = Char.ofNat 125 then some rest
      else
        let keyStart : Option (List Char) :=
          if first then some (c :: rest)
          else if c = ',' then some (rest.dropWhile jsonWs)
          else none
        match keyStart with
        | none => none
        | some ks =>
          match ks with
          | '"' :: krest =>
            match jsonStringRest krest with
            | none => none
            | some afterKey =>
              match afterKey.dropWhile jsonWs with
              | ':' :: vrest =>
                match jsonP fuel .value vrest with
                | none => none
                | some afterVal => jsonP fuel (.members false) afterVal
              | _ => none
          | _ => none
  | fuel + 1, .elems first, cs =>
    match cs.dropWhile jsonWs with
    | [] => none
    | c :: rest =>
      if c = ']' then some rest
      else
        let valStart : Option (List Char) :=
          if first then some (c :: rest)
          else if c = ',' then some rest
          else none
        match valStart with
        | none => none
        | some vs =>
          match jsonP fuel .value vs with
          | none => none
          | some afterVal => jsonP fuel (.elems false) afterVal

/-- Platform model of `JSON.parse(s)` succeeding: one JSON value with
only whitespace after it (fuel amply covers any input of its length). -/
def jsonWellFormed (s : String) : Bool :=
  match jsonP (4 * s.length + 8) .value s.data with
  | some rest => (rest.dropWhile jsonWs).isEmpty
  | none => false

/-- `validateJson` (source lines 477-493); the parse-error detail string
of the platform is condensed. -/
def validateJsonM (value : Value) : VOut :=
  match value with
  | .str jsonString =>
    let trimmedJson := jsTrim jsonString
    if trimmedJson = "" then .msg "JSON cannot be empty"
    else if jsonWellFormed trimmedJson then .tru
    else .msg "Invalid JSON format: Unexpected token"
  | _ => .msg "JSON must be a string"

/-- The closed enumeration of supported field types. -/
inductive EnvType where
  | string
  | number
  | boolean
  | url
  | port
  | email
  | ip
  | json
  | regex
deriving DecidableEq

/-- A schema default: a plain value or a zero-argument producer function
(when the default is typeof function). -/
inductive DefaultVal where
  | val (v : Value)
  | producer (f : Unit → Value)

/-- Use a default: invoke it when it is a function (source lines 766-769). -/
def evalDefault : DefaultVal → Value
  | .val v => v
  | .producer f => f ()

/-- A raw custom `validate` predicate outcome: `true`, `false`, or a
string (possibly empty — JS distinguishes falsy from non-string here). -/
inductive RawVRes where
  | tru
  | fls
  | str (s : String)
deriving DecidableEq

/-- An author-supplied field definition (`SchemaDefinition`, source
lines 20-100): the recognized common options plus every type-specific
option, as one options bag the way the untyped source consumes it. -/
structure FieldDef where
  type : EnvType
  required : Option Bool := none
  default : Option DefaultVal := none
  enum : Option (List Value) := none
  validate : Option (Value → Except ThrownErr RawVRes) := none
  transform : Option (Value → Except ThrownErr Value) := none
  description : Option String := none
  minLength : Option Nat := none
  maxLength : Option Nat := none
  min : Option Rat := none
  max : Option Rat := none
  protocols : Option (List String) := none
  requireProtocol : Option Bool := none
  common : Option (List String) := none
  allowPlus : Option Bool := none
  version : Option IpVersion := none
  pattern : Option Pattern := none

/-- A compiled field schema (`CompiledFieldSchema`, source lines 173-181). -/
structure CompiledField where
  type : EnvType
  required : Bool
  default : Option DefaultVal
  validator : Option (Value → Except ThrownErr VOut)
  transform : Option (Value → Except ThrownErr Value)
  enum : Option (List Value)
  description : Option String

/-- `Array.prototype.join` element rendering: `undefined` and `null`
become the empty string, everything else its string form. -/
def joinElem : Value → String
  | .undef => ""
  | .null => ""
  | v => jsToString v

/-- The enum list joined with a comma-space separator. -/
def joinValues (vs : List Value) : String :=
  String.intercalate ", " (vs.map joinElem)

/-- The custom-validate wrapper of source lines 599-604:
a true result stays true, any other truthy result (a non-empty string)
is kept, and a falsy result becomes the generic fallback message. -/
def wrapCustom (f : Value → Except ThrownErr RawVRes) : Value → Except ThrownErr VOut :=
  fun val => do
    let result ← f val
    match result with
    | .tru => pure .tru
    | .fls => pure (.msg "Custom validation failed")
    | .str s => if s = "" then pure (.msg "Custom validation failed") else pure (.msg s)

/-- Per-field compilation (`defineSchema` body, source lines 578-717):
custom-validate wrapper first, then the type-specific constraint wrapper
(present only when the matching options are), then the enum wrapper
outermost (only when `enum` is non-empty).  The `regex` branch replaces
rather than chains the validator built so far. -/
def compileField (fieldDef : FieldDef) : CompiledField :=
  let v0 : Option (Value → Except ThrownErr VOut) := fieldDef.validate.map wrapCustom
  let v1 : Option (Value → Except ThrownErr VOut) :=
    match fieldDef.type with
    | .string =>
      if fieldDef.minLength.isSome ∨ fieldDef.maxLength.isSome then
        some (fun value =>
          match stringValidator value fieldDef.minLength fieldDef.maxLength with
          | .msg s => pure (.msg s)
          | .tru =>
            match v0 with
            | some ov => ov value
            | none => pure .tru)
      else v0
    | .number =>
      if fieldDef.min.isSome ∨ fieldDef.max.isSome then
        some (fun value =>
          match numberValidator value fieldDef.min fieldDef.max with
          | .msg s => pure (.msg s)
          | .tru =>
            match v0 with
            | some ov => ov value
            | none => pure .tru)
      else v0
    | .url =>
      if fieldDef.protocols.isSome ∨ fieldDef.requireProtocol.isSome then
        some (fun value =>
          match validateUrlM value
              (some { protocols := fieldDef.protocols
                      requireProtocol := fieldDef.requireProtocol }) with
          | .msg s => pure (.msg s)
          | .tru =>
            match v0 with
            | some ov => ov value
            | none => pure .tru)
      else v0
    | .port =>
      if fieldDef.common.isSome then
        some (fun value =>
          match validatePortM value with
          | .msg s => pure (.msg s)
          | .tru =>
            match v0 with
            | some ov => ov value
            | none => pure .tru)
      else v0
    | .email =>
      if fieldDef.allowPlus.isSome then
        some (fun value =>
          match validateEmailM value with
          | .msg s => pure (.msg s)
          | .tru =>
            match v0 with
            | some ov => ov value
            | none => pure .tru)
      else v0
    | .ip =>
      if fieldDef.version.isSome then
        some (fun value =>
          match validateIpM value fieldDef.version with
          | .msg s => pure (.msg s)
          | .tru =>
            match v0 with
            | some ov => ov value
            | none => pure .tru)
      else v0
    | .regex =>
      match fieldDef.pattern with
      | some p => some (fun value => validateRegexM value (some p))
      | none => v0
    | .boolean => v0
    | .json => v0
  let v2 : Option (Value → Except ThrownErr VOut) :=
    match fieldDef.enum with
    | some enumValues =>
      if enumValues.length > 0 then
        some (fun value =>
          if ¬ enumValues.contains value then
            pure (.msg ("Value must be one of: " ++ joinValues enumValues))
          else
            match v1 with
            | some ov => ov value
            | none => pure .tru)
      else v1
    | none => v1
  { type := fieldDef.type, required := fieldDef.required.getD false,
    default := fieldDef.default, validator := v2, transform := fieldDef.transform,
    enum := fieldDef.enum, description := fieldDef.description }

/-- A raw environment override (`Partial SchemaDefinition`): only the
keys the validation engine can observe after the shallow merge are
modelled (the type-specific option keys would be carried along too but
are read by nothing at validation time, like `validate`). -/
structure Override where
  type : Option EnvType := none
  required : Option Bool := none
  default : Option DefaultVal := none
  enum : Option (List Value) := none
  validate : Option (Value → Except ThrownErr RawVRes) := none
  transform : Option (Value → Except ThrownErr Value) := none
  description : Option String := none

/-- The per-call effective field object produced by
`Object.assign({...fieldSchema}, override)`: the compiled keys, each
possibly replaced by the override, plus the raw `validate` key the
override may add (the compiled object has no `validate` property of its
own, so it is present only when the override supplies it). -/
structure EffectiveSchema where
  type : EnvType
  required : Bool
  default : Option DefaultVal
  validator : Option (Value → Except ThrownErr VOut)
  transform : Option (Value → Except ThrownErr Value)
  enum : Option (List Value)
  description : Option String
  validate : Option (Value → Except ThrownErr RawVRes)

/-- Shallow merge of an override onto a copy of a compiled field
(source lines 744-747); no override applies when the overrides block has
no entry for the field. -/
def mergeOverride (f : CompiledField) (ov : Option Override) : EffectiveSchema :=
  match ov with
  | none =>
    { type := f.type, required := f.required, default := f.default,
      validator := f.validator, transform := f.transform, enum := f.enum,
      description := f.description, validate := none }
  | some o =>
    { type := o.type.getD f.type, required := o.required.getD f.required,
      default := o.default <|> f.default, validator := f.validator,
      transform := o.transform <|> f.transform, enum := o.enum <|> f.enum,
      description := o.description <|> f.description, validate := o.validate }

/-- Membership of the field type in the four coercible types together
with the cast to the type parameter of `coerceValue` (source lines
778-781). -/
def coerceTypeFor : EnvType → Option CoerceType
  | .string => some .string
  | .number => some .number
  | .boolean => some .boolean
  | .port => some .port
  | _ => none

/-- `(validators as any)[type]` invoked with the single argument
`value` (source lines 800-802): every option parameter is `undefined`. -/
def runBuiltin (t : EnvType) (value : Value) : Except ThrownErr VOut :=
  match t with
  | .url => pure (validateUrlM value none)
  | .port => pure (validatePortM value)
  | .email => pure (validateEmailM value)
  | .ip => pure (validateIpM value none)
  | .json => pure (validateJsonM value)
  | .regex => validateRegexM value none
  | .string => pure (stringValidator value none none)
  | .number => pure (numberValidator value none none)
  | .boolean => pure (booleanValidator value)

/-- The outer `catch` of `validateEnv` (source lines 833-853): a
`ValidationError` is copied field by field; any other thrown value is
reported as a generic `TypeError` on the current value. -/
def catchGeneric (te : ThrownErr) (fieldName envVarName : String) (value : Value) : VError :=
  match te with
  | .verr e =>
    { field := e.field, message := e.message, value := e.value,
      expected := e.expected, received := e.received,
      envVarName := e.envVarName, etype := e.etype }
  | .err m =>
    { field := fieldName, message := m, value := value, expected := none,
      received := none, envVarName := envVarName, etype := .typeError }
  | .nonErr =>
    { field := fieldName, message := "Unknown error during validation", value := value,
      expected := none, received := none, envVarName := envVarName, etype := .typeError }

/-- The `try` block of `validateEnv` for one field holding a working
value (source lines 776-853): coercion for the four coercible types,
the transform with its inner catch, the built-in validator, the
compiled custom validator, each aborting the field with exactly one
error on first failure. -/
def fieldPipeline (eff : EffectiveSchema) (fieldName envVarName : String)
    (value0 : Value) : Except VError (Option Value) :=
  let coerced : Except VError Value :=
    match coerceTypeFor eff.type with
    | some ct => coerceValue value0 ct
    | none => .ok value0
  match coerced with
  | .error e => .error e
  | .ok value1 =>
    let transformed : Except VError Value :=
      match eff.transform with
      | none => .ok value1
      | some tf =>
        match tf value1 with
        | .ok v => .ok v
        | .error te =>
          .error
            { field := fieldName,
              message := "Transform failed: " ++ te.messageOr "Unknown error",
              value := value1, expected := none, received := none,
              envVarName := envVarName, etype := .transformError }
    match transformed with
    | .error e => .error e
    | .ok value2 =>
      match runBuiltin eff.type value2 with
      | .error te => .error (catchGeneric te fieldName envVarName value2)
      | .ok (.msg m) =>
        .error
          { field := fieldName, message := m, value := value2, expected := none,
            received := none, envVarName := envVarName, etype := .formatError }
      | .ok .tru =>
        match eff.validator with
        | none => .ok (some value2)
        | some cv =>
          match cv value2 with
          | .error te => .error (catchGeneric te fieldName envVarName value2)
          | .ok (.msg m) =>
            .error
              { field := fieldName, message := m, value := value2, expected := none,
                received := none, envVarName := envVarName, etype := .formatError }
          | .ok .tru => .ok (some value2)

/-- Processing of one schema field (source lines 742-854): override
merge, upper-cased lookup, the required / default / skip presence rules,
then the pipeline.  `.ok none` is the silent skip of an optional absent
field without default. -/
def processField (env : List (String × String)) (ov : Option Override)
    (fieldName : String) (f : CompiledField) : Except VError (Option Value) :=
  let eff := mergeOverride f ov
  let envVarName := jsToUpperStr fieldName
  match List.lookup envVarName env with
  | none =>
    if eff.required then
      .error
        { field := fieldName,
          message := "Required environment variable \"" ++ envVarName ++ "\" is missing",
          value := .undef, expected := none, received := none,
          envVarName := envVarName, etype := .requiredError }
    else
      match eff.default with
      | some d => fieldPipeline eff fieldName envVarName (evalDefault d)
      | none => .ok none
  | some s => fieldPipeline eff fieldName envVarName (.str s)

/-- A compiled schema with its raw environment overrides
(`CompiledSchemaWithEnvironments`); field order is the declaration
order of `Object.entries`.  An absent `_environments` block is the
empty list (observationally identical lookups). -/
structure CompiledSchemaWE where
  schema : List (String × CompiledField)
  environments : List (String × List (String × Override))

/-- `defineSchema` (source lines 569-724): compile every field in
order, pass the `_environments` block through unprocessed.  (The
`SchemaError` cases — a non-object field definition or a missing
`type` — cannot arise for well-typed `FieldDef` inputs and are outside
this model.) -/
def defineSchema (fields : List (String × FieldDef))
    (environments : List (String × List (String × Override))) : CompiledSchemaWE :=
  { schema := fields.map (fun p => (p.1, compileField p.2)), environments := environments }

/-- The validation result record (source lines 133-138). -/
structure ValidationResultM where
  success : Bool
  data : Option (List (String × Value))
  errors : List VError
  hasErrors : Bool

/-- `environment && compiledSchema._environments?.[environment] || {}`
(source line 739): an absent or empty-string environment name, or a name
with no override block, yields no overrides. -/
def lookupOverrides (cs : CompiledSchemaWE) (environment : Option String) :
    List (String × Override) :=
  match environment with
  | none => []
  | some e => if e = "" then [] else (List.lookup e cs.environments).getD []

/-- One fold step of the per-field loop: an error is appended to the
error list, an accepted value to the data object, a skip changes
nothing. -/
def validateStep (env : List (String × String)) (envOverrides : List (String × Override))
    (acc : List VError × List (String × Value)) (p : String × CompiledField) :
    List VError × List (String × Value) :=
  match processField env (List.lookup p.1 envOverrides) p.1 p.2 with
  | .error e => (acc.1 ++ [e], acc.2)
  | .ok (some v) => (acc.1, acc.2 ++ [(p.1, v)])
  | .ok none => acc

/-- `validateEnv` (source lines 729-862).  The ambient `process.env`
fallback is the concern of the caller; the model always receives the env map
explicitly. -/
def validateEnv (cs : CompiledSchemaWE) (env : List (String × String))
    (environment : Option String) : ValidationResultM :=
  let envOverrides := lookupOverrides cs environment
  let r := cs.schema.foldl (validateStep env envOverrides) ([], [])
  { success := r.1.isEmpty, data := if r.1.isEmpty then some r.2 else none,
    errors := r.1, hasErrors := !r.1.isEmpty }

/-! ### Shared helper lemmas -/

/-- The errors accumulated by the fold of `validateEnv` are exactly the
per-field first failures, in schema order. -/
theorem errors_foldl (env : List (String × String)) (envOverrides : List (String × Override)) :
    ∀ (l : List (String × CompiledField)) (acc : List VError × List (String × Value)),
    (List.foldl (validateStep env envOverrides) acc l).1 =
      acc.1 ++ l.filterMap (fun p =>
        match processField env (List.lookup p.1 envOverrides) p.1 p.2 with
        | .error e => some e
        | .ok _ => none) := by
  intro l
  induction l with
  | nil => intro acc; simp
  | cons p l ih =>
    intro acc
    rw [List.foldl_cons, ih]
    cases h : processField env (List.lookup p.1 envOverrides) p.1 p.2 with
    | error e => simp [validateStep, h]
    | ok ov => cases ov <;> simp [validateStep, h]

/-! ### C1 -/

/-- The field of the C1 scenario: a `number` field with the string
default `abc`, not in target-type form. -/
def c1Field : FieldDef := { type := .number, default := some (.val (.str "abc")) }

/-- The compiled one-field schema of the C1 scenario. -/
def c1Schema : CompiledSchemaWE := defineSchema [("num", c1Field)] []

/-- C1 counterexample: the claim says a default bypasses `coerceValue`
and the built-in type validator and is trusted as already being in
target-type form, so validating the absent field with default `abc`
would succeed with the raw default as the working value; instead the
engine feeds the default through `coerceValue`, which fails, and the
call reports exactly the coercion error. -/
theorem c1_counterexample :
    (validateEnv c1Schema [] none).success = false ∧
    (validateEnv c1Schema [] none).errors.map (fun e => e.message) = ["Cannot coerce to number"] := by
  constructor <;> decide

/-- C1 (amended): for a schema field absent from the env map, not
effectively required, and with a defined default, the engine uses the
default (invoking it if it is a zero-argument producer) as the working
value — but that value then enters the same pipeline as a present value
(`fieldPipeline`): it is passed through `coerceValue` for the coercible
types and through the built-in type validator, not trusted as already
being in target-type form. -/
theorem c1_default_enters_full_pipeline (env : List (String × String)) (ov : Option Override)
    (fieldName : String) (f : CompiledField) (d : DefaultVal)
    (h1 : List.lookup (jsToUpperStr fieldName) env = none)
    (h2 : (mergeOverride f ov).required = false)
    (h3 : (mergeOverride f ov).default = some d) :
    processField env ov fieldName f =
      fieldPipeline (mergeOverride f ov) fieldName (jsToUpperStr fieldName) (evalDefault d) := by
  simp [processField, h1, h2, h3]

/-- Witness for C1 (amended) at the concrete C1 scenario. -/
theorem c1_default_enters_full_pipeline_witness :
    processField [] none "num" (compileField c1Field) =
      fieldPipeline (mergeOverride (compileField c1Field) none) "num" (jsToUpperStr "num")
        (evalDefault (.val (.str "abc"))) :=
  c1_default_enters_full_pipeline [] none "num" (compileField c1Field) (.val (.str "abc"))
    (by rfl) (by rfl) (by rfl)

/-- The `errors` list of a validation result is exactly the list of
per-field first failures, in schema declaration order. -/
theorem validateEnv_errors_eq (cs : CompiledSchemaWE) (env : List (String × String))
    (environment : Option String) :
    (validateEnv cs env environment).errors =
      cs.schema.filterMap (fun p =>
        match processField env (List.lookup p.1 (lookupOverrides cs environment)) p.1 p.2 with
        | .error e => some e
        | .ok _ => none) := by
  simp [validateEnv, errors_foldl]

/-! ### C2 -/

/-- The type-specific constraint check that the matching branch of
`defineSchema` layers before the custom predicate when its options are
present: length bounds for string, numeric bounds for number, the URL
check with the protocol options for url, the port check for port, the
email check for email, the IP check with the version option for ip;
boolean and json have none, and regex replaces the chain instead. -/
def typeSpecificCheck (fd : FieldDef) (v : Value) : VOut :=
  match fd.type with
  | .string => stringValidator v fd.minLength fd.maxLength
  | .number => numberValidator v fd.min fd.max
  | .url => validateUrlM v
      (some { protocols := fd.protocols
              requireProtocol := fd.requireProtocol })
  | .port => validatePortM v
  | .email => validateEmailM v
  | .ip => validateIpM v fd.version
  | .boolean => .tru
  | .json => .tru
  | .regex => .tru

/-- The option-presence condition under which `defineSchema` layers the
type-specific wrapper for the field type of the definition (False for
boolean and json, which have no wrapper, and for regex, whose branch
replaces the chain rather than wrapping it). -/
def typeSpecificActive (fd : FieldDef) : Prop :=
  match fd.type with
  | .string => fd.minLength.isSome = true ∨ fd.maxLength.isSome = true
  | .number => fd.min.isSome = true ∨ fd.max.isSome = true
  | .url => fd.protocols.isSome = true ∨ fd.requireProtocol.isSome = true
  | .port => fd.common.isSome = true
  | .email => fd.allowPlus.isSome = true
  | .ip => fd.version.isSome = true
  | .boolean => False
  | .json => False
  | .regex => False

/-- C3: the composed validator built by `defineSchema` evaluates the
enum membership check first (for any field type: a value outside a
non-empty enum always yields the enum message, whatever the
type-specific and custom checks would say), the type-specific check
second and the custom predicate last, for every field type that layers
a type-specific wrapper (string, number, url, port, email, ip with
their options present): inside the enum, a type-specific failure
message is returned without consulting the custom predicate, and only
a type-specific pass delegates to the wrapped custom predicate; for a
non-regex field without active type-specific options the enum check
delegates directly to the wrapped custom predicate. -/
theorem c3_composition_order :
    (∀ (fd : FieldDef) (es : List Value), fd.enum = some es → es ≠ [] →
      ∀ v : Value, es.contains v = false →
        ((compileField fd).validator.map (fun cv => cv v)) =
          some (pure (.msg ("Value must be one of: " ++ joinValues es)))) ∧
    (∀ (fd : FieldDef) (es : List Value) (vf : Value → Except ThrownErr RawVRes),
      fd.enum = some es → es ≠ [] → fd.validate = some vf → typeSpecificActive fd →
      ∀ v : Value, es.contains v = true →
        (∀ m, typeSpecificCheck fd v = .msg m →
          ((compileField fd).validator.map (fun cv => cv v)) = some (pure (.msg m))) ∧
        (typeSpecificCheck fd v = .tru →
          ((compileField fd).validator.map (fun cv => cv v)) = some (wrapCustom vf v))) ∧
    (∀ (fd : FieldDef) (es : List Value) (vf : Value → Except ThrownErr RawVRes),
      fd.enum = some es → es ≠ [] → fd.validate = some vf →
      fd.type ≠ .regex → ¬ typeSpecificActive fd →
      ∀ v : Value, es.contains v = true →
        ((compileField fd).validator.map (fun cv => cv v)) = some (wrapCustom vf v)) := by
  refine ⟨?_, ?_, ?_⟩
  · intro fd es he hne v hv
    have hlen : es.length > 0 := List.length_pos.mpr hne
    have hv2 : v ∉ es := by simpa using hv
    simp [compileField, he, hlen, hv2]
  · intro fd es vf he hne hvalidate hactive v hv
    have hlen : es.length > 0 := List.length_pos.mpr hne
    have hv2 : v ∈ es := by simpa using hv
    rcases hft : fd.type <;>
      simp only [typeSpecificActive, hft] at hactive <;>
      try exact hactive.elim
    all_goals
      constructor
      · intro m hsv
        simp only [typeSpecificCheck, hft] at hsv
        simp [compileField, hft, he, hlen, hv2, hvalidate, hactive, hsv]
      · intro hsv
        simp only [typeSpecificCheck, hft] at hsv
        simp [compileField, hft, he, hlen, hv2, hvalidate, hactive, hsv]
  · intro fd es vf he hne hvalidate hreg hactive v hv
    have hlen : es.length > 0 := List.length_pos.mpr hne
    have hv2 : v ∈ es := by simpa using hv
    rcases hft : fd.type <;>
      simp only [typeSpecificActive, hft] at hactive <;>
      first
        | exact absurd hft hreg
        | simp [compileField, hft, he, hlen, hv2, hvalidate, hactive]

/-- The concrete string field of the C3 witness: enum of `a` and `bb`,
minLength 2, and a custom predicate that always fails. -/
def c3Field : FieldDef :=
  { type := .string, enum := some [.str "a", .str "bb"],
    validate := some (fun _ => pure .fls), minLength := some 2 }

/-- The concrete email field of the C3 witness: enum of an invalid and
a valid address, the allowPlus option set, and a custom predicate that
always fails. -/
def c3EmailField : FieldDef :=
  { type := .email, enum := some [.str "bad email", .str "user@example.com"],
    validate := some (fun _ => pure .fls), allowPlus := some true }

/-- Witness for C3: `zz` (outside the string-field enum) reports the
enum message although the custom predicate would also fail; on the
email field, the in-enum invalid address reports the email-format
message without consulting the custom predicate, and the in-enum valid
address delegates to the wrapped custom predicate. -/
theorem c3_composition_order_witness :
    ((compileField c3Field).validator.map (fun cv => cv (.str "zz"))) =
      some (pure (.msg "Value must be one of: a, bb")) ∧
    ((compileField c3EmailField).validator.map (fun cv => cv (.str "bad email"))) =
      some (pure (.msg "Invalid email format")) ∧
    ((compileField c3EmailField).validator.map (fun cv => cv (.str "user@example.com"))) =
      some (wrapCustom (fun _ => pure .fls) (.str "user@example.com")) := by
  refine ⟨?_, ?_, ?_⟩
  · exact c3_composition_order.1 c3Field [.str "a", .str "bb"] rfl (by decide)
      (.str "zz") (by decide)
  · exact (c3_composition_order.2.1 c3EmailField
      [.str "bad email", .str "user@example.com"] (fun _ => pure .fls)
      rfl (by decide) rfl rfl (.str "bad email") (by decide)).1
      "Invalid email format" (by decide)
  · exact (c3_composition_order.2.1 c3EmailField
      [.str "bad email", .str "user@example.com"] (fun _ => pure .fls)
      rfl (by decide) rfl rfl (.str "user@example.com") (by decide)).2
      (by decide)

/-! ### C4 -/

/-- The concrete pattern of the C4 scenario: matches exactly `a`. -/
def c4Pattern : Pattern := fun s => s == "a"

/-- The concrete field of the C4 counterexample: regex type with a
pattern, a non-empty enum containing only `b`, and a custom predicate. -/
def c4Field : FieldDef :=
  { type := .regex, pattern := some c4Pattern, enum := some [.str "b"],
    validate := some (fun _ => pure .fls) }

/-- C4 counterexample: the claim says the compiled validator of every
regex field with a pattern returns true iff the pattern matches; but on
a regex field that also carries a non-empty enum, the value `a` matches
the pattern yet the compiled validator rejects it with the enum
message (the enum wrapper is layered outside the pattern check). -/
theorem c4_counterexample :
    c4Pattern "a" = true ∧
    ((compileField c4Field).validator.map (fun cv => cv (.str "a"))) =
      some (pure (.msg "Value must be one of: b")) := by
  exact ⟨rfl, rfl⟩

/-- C4 (amended): for every regex field whose definition supplies a
pattern, the compiled validator is exactly the pattern-match check
whenever the field has no non-empty enum, and a custom validate
predicate on such a field is never layered in at all — compiling the
field yields the same compiled result as compiling it without the
custom predicate (a non-empty enum, however, wraps an enum-membership
check outside the pattern check). -/
theorem c4_regex_validator (fd : FieldDef) (p : Pattern)
    (ht : fd.type = .regex) (hp : fd.pattern = some p) :
    ((fd.enum = none ∨ fd.enum = some []) →
      ∀ v : Value, ((compileField fd).validator.map (fun cv => cv v)) =
        some (validateRegexM v (some p))) ∧
    compileField fd = compileField { fd with validate := none } := by
  constructor
  · rintro (he | he) v <;> simp [compileField, ht, hp, he]
  · simp [compileField, ht, hp]

/-- The concrete field of the C4 amended witness: regex type with a
pattern and a custom predicate, no enum. -/
def c4WField : FieldDef :=
  { type := .regex, pattern := some c4Pattern, validate := some (fun _ => pure .fls) }

/-- Witness for C4 (amended) at the concrete field. -/
theorem c4_regex_validator_witness :
    ((compileField c4WField).validator.map (fun cv => cv (.str "x"))) =
      some (validateRegexM (.str "x") (some c4Pattern)) ∧
    compileField c4WField = compileField { c4WField with validate := none } := by
  have h := c4_regex_validator c4WField c4Pattern rfl rfl
  exact ⟨h.1 (Or.inl rfl) (.str "x"), h.2⟩

/-! ### C5 -/

/-- The two-field schema of the C5 scenario: a valid string field and a
number field that will fail coercion. -/
def c5Schema : CompiledSchemaWE :=
  defineSchema [("host", { type := .string }), ("port", { type := .number })] []

/-- C5: in every validation result, `success` is true iff the errors
list is empty, `hasErrors` is true iff it is non-empty, and `data` is
present iff the errors list is empty; concretely, with one valid and
one invalid field the result has `success = false` and `data`
undefined — the coerced value of the valid field is not exposed through a
partial data object. -/
theorem c5_result_invariants :
    (∀ (cs : CompiledSchemaWE) (env : List (String × String)) (environment : Option String),
      ((validateEnv cs env environment).success = true ↔
        (validateEnv cs env environment).errors = []) ∧
      ((validateEnv cs env environment).hasErrors = true ↔
        (validateEnv cs env environment).errors ≠ []) ∧
      ((validateEnv cs env environment).data.isSome = true ↔
        (validateEnv cs env environment).errors = [])) ∧
    ((validateEnv c5Schema [("HOST", "localhost"), ("PORT", "abc")] none).success = false ∧
     (validateEnv c5Schema [("HOST", "localhost"), ("PORT", "abc")] none).data = none ∧
     (validateEnv c5Schema [("HOST", "localhost"), ("PORT", "abc")] none).errors.length = 1) := by
  constructor
  · intro cs env environment
    simp only [validateEnv]
    refine ⟨?_, ?_, ?_⟩ <;>
      cases h : (cs.schema.foldl (validateStep env (lookupOverrides cs environment)) ([], [])).1 <;>
        simp [h]
  · refine ⟨by decide, by decide, by decide⟩

/-! ### C6 -/

/-- C6: no validation-time problem escapes `validateEnv` as an
exception — thrown coercion errors, transform exceptions, and built-in
or custom validator failures and exceptions are all converted by the
per-field pipeline into at most one `errors` entry per field, the
first failing stage winning; the errors list of the result is exactly the
per-field first failures in schema order, so its length never exceeds
the number of schema fields. -/
theorem c6_errors_captured_one_per_field (cs : CompiledSchemaWE) (env : List (String × String))
    (environment : Option String) :
    (validateEnv cs env environment).errors =
      cs.schema.filterMap (fun p =>
        match processField env (List.lookup p.1 (lookupOverrides cs environment)) p.1 p.2 with
        | .error e => some e
        | .ok _ => none) ∧
    (validateEnv cs env environment).errors.length ≤ cs.schema.length := by
  refine ⟨validateEnv_errors_eq cs env environment, ?_⟩
  rw [validateEnv_errors_eq]
  exact List.length_filterMap_le _ _

/-! ### C7 -/

/-- The schema of the C7 scenario: an optional `DATABASE_URL` url field
with a production override making it required. -/
def c7Schema : CompiledSchemaWE :=
  defineSchema [("DATABASE_URL", { type := .url })]
    [("production", [("DATABASE_URL", { required := some true })])]

/-- C7: with environment `production` and no `DATABASE_URL` in the env
map the result is exactly one `RequiredError`; with no environment
name, or an environment name with no override block, the same inputs
succeed and the field is simply omitted from `data`. -/
theorem c7_environment_override :
    ((validateEnv c7Schema [] (some "production")).errors.map (fun e => e.etype) =
        [.requiredError] ∧
     (validateEnv c7Schema [] (some "production")).success = false) ∧
    ((validateEnv c7Schema [] none).success = true ∧
     (validateEnv c7Schema [] none).data = some []) ∧
    ((validateEnv c7Schema [] (some "staging")).success = true ∧
     (validateEnv c7Schema [] (some "staging")).data = some []) := by
  refine ⟨⟨by decide, by decide⟩, ⟨by decide, by decide⟩, by decide, by decide⟩

/-! ### C8 -/

/-- C8: `coerceValue` with target type number, and likewise with target
type port, uses leading-numeric-prefix parsing on strings: any string
whose parse model yields a finite value coerces to exactly that value
under either target type — full-string numeric validity is not
required, e.g. `12.34.56` coerces to 12.34 — the empty string fails
with a coercion error under either target type, and an already-numeric
input passes through unchanged under either target type iff it is
finite and not NaN. -/
theorem c8_numeric_prefix_coercion :
    (∀ (s : String) (q : Rat), jsParseFloat s = .finite q →
        coerceValue (.str s) .number = .ok (.num (.finite q)) ∧
        coerceValue (.str s) .port = .ok (.num (.finite q))) ∧
    jsParseFloat "12.34.56" = .finite (1234 / 100 : Rat) ∧
    coerceValue (.str "") .number =
      .error { field := "value", message := "Cannot coerce to number", value := .str "",
               expected := some "numeric string", received := some "",
               envVarName := "TypeError", etype := .formatError } ∧
    coerceValue (.str "") .port =
      .error { field := "value", message := "Cannot coerce to port number", value := .str "",
               expected := some "numeric string", received := some "",
               envVarName := "TypeError", etype := .formatError } ∧
    (∀ n : JsNum, coerceValue (.num n) .number = .ok (.num n) ↔ n.isInvalid = false) ∧
    (∀ n : JsNum, coerceValue (.num n) .port = .ok (.num n) ↔ n.isInvalid = false) := by
  refine ⟨?_, ?_, ?_, ?_, ?_, ?_⟩
  · intro s q h
    constructor <;> simp [coerceValue, jsToString, h]
  · with_unfolding_all rfl
  · rfl
  · rfl
  · intro n
    cases n <;> simp [coerceValue, JsNum.isInvalid, mkValidationError]
  · intro n
    cases n <;> simp [coerceValue, JsNum.isInvalid, mkValidationError]

/-- Witness for C8 at `0.5abc`, whose numeric prefix is one half, under
both target types, and at NaN and Infinity for the pass-through
equivalences. -/
theorem c8_numeric_prefix_coercion_witness :
    coerceValue (.str "0.5abc") .number = .ok (.num (.finite (1 / 2 : Rat))) ∧
    coerceValue (.str "0.5abc") .port = .ok (.num (.finite (1 / 2 : Rat))) ∧
    (coerceValue (.num .nan) .number = .ok (.num .nan) ↔ JsNum.nan.isInvalid = false) ∧
    (coerceValue (.num .inf) .port = .ok (.num .inf) ↔ JsNum.inf.isInvalid = false) :=
  ⟨(c8_numeric_prefix_coercion.1 "0.5abc" (1 / 2) (by with_unfolding_all rfl)).1,
   (c8_numeric_prefix_coercion.1 "0.5abc" (1 / 2) (by with_unfolding_all rfl)).2,
   c8_numeric_prefix_coercion.2.2.2.2.1 .nan,
   c8_numeric_prefix_coercion.2.2.2.2.2 .inf⟩

/-! ### C9 -/

/-- A successful URL parse carries a protocol of the shape
scheme-characters followed by a colon. -/
theorem parseUrl_protocol_shape (s : String) (u : UrlRec) (h : parseUrl s = some u) :
    ∃ l : List Char, u.protocol = String.mk l ++ ":" := by
  unfold parseUrl at h
  split at h
  · cases h
  · split at h
    · cases h
    · split at h
      · injection h with h2
        exact ⟨_, by rw [← h2]⟩
      · cases h

/-- A scheme-plus-colon string is never empty. -/
theorem mkColon_ne_empty (l : List Char) : String.mk l ++ ":" ≠ "" := by
  intro h
  have h2 := congrArg String.length h
  rw [String.length_append] at h2
  have h3 : (":" : String).length = 1 := rfl
  have h4 : ("" : String).length = 0 := rfl
  omega

/-- The dynamic protocols message never coincides with the
missing-protocol message (their first characters differ). -/
theorem protocolsMsg_ne (x : String) :
    ("Protocol must be one of: " ++ x) ≠ "URL must include protocol (http://, https://, etc.)" := by
  intro h
  have h2 : ("Protocol must be one of: " ++ x).data.head? = some 'P' := rfl
  rw [h] at h2
  exact absurd h2 (by decide)

/-- C9: `validateUrl` never returns the missing-protocol message — when
the input parses as a URL the parsed protocol is a non-empty string, so
the failure branch of the `requireProtocol` guard is unreachable — and the
`requireProtocol` option never changes the result. -/
theorem c9_requireProtocol_inert :
    (∀ (v : Value) (options : Option UrlOptions),
      validateUrlM v options ≠ .msg "URL must include protocol (http://, https://, etc.)") ∧
    (∀ (v : Value) (p : Option (List String)) (rp rp' : Option Bool),
      validateUrlM v (some { protocols := p, requireProtocol := rp }) =
      validateUrlM v (some { protocols := p, requireProtocol := rp' })) := by
  constructor
  · intro v options hcontra
    cases v with
    | str url =>
      by_cases h0 : jsTrim url = ""
      · simp [validateUrlM, h0] at hcontra
      · rcases hpu : parseUrl (jsTrim url) with _ | u
        · simp [validateUrlM, h0, hpu] at hcontra
        · obtain ⟨l, hl⟩ := parseUrl_protocol_shape _ _ hpu
          have hne : u.protocol ≠ "" := by
            rw [hl]
            exact mkColon_ne_empty l
          by_cases hct : u.protocol ∈ (options.bind fun o => o.protocols).getD
              ["http:", "https:", "ftp:"]
          · simp [validateUrlM, h0, hpu, hct, hne] at hcontra
            split at hcontra <;> simp at hcontra
          · simp [validateUrlM, h0, hpu, hct] at hcontra
            exact protocolsMsg_ne _ hcontra
    | num n => simp [validateUrlM] at hcontra
    | bool b => simp [validateUrlM] at hcontra
    | obj => simp [validateUrlM] at hcontra
    | undef => simp [validateUrlM] at hcontra
    | null => simp [validateUrlM] at hcontra
  · intro v p rp rp'
    cases v with
    | str url =>
      by_cases h0 : jsTrim url = ""
      · simp [validateUrlM, h0]
      · rcases hpu : parseUrl (jsTrim url) with _ | u
        · simp [validateUrlM, h0, hpu]
        · obtain ⟨l, hl⟩ := parseUrl_protocol_shape _ _ hpu
          have hne : u.protocol ≠ "" := by
            rw [hl]
            exact mkColon_ne_empty l
          by_cases hct : u.protocol ∈ p.getD ["http:", "https:", "ftp:"]
          · simp [validateUrlM, h0, hpu, hct, hne]
          · simp [validateUrlM, h0, hpu, hct]
    | num n => rfl
    | bool b => rfl
    | obj => rfl
    | undef => rfl
    | null => rfl

/-! ### C10 -/

/-- Removal of the raw `validate` key from an override. -/
def scrubValidate (o : Override) : Override := { o with validate := none }

/-- Removal of every raw `validate` key from the override block of one
environment. -/
def scrubFieldOverrides (l : List (String × Override)) : List (String × Override) :=
  l.map (fun q => (q.1, scrubValidate q.2))

/-- Removal of every raw `validate` key from an `_environments` block. -/
def scrubEnvs (envs : List (String × List (String × Override))) :
    List (String × List (String × Override)) :=
  envs.map (fun p => (p.1, scrubFieldOverrides p.2))

/-- Lookup in a scrubbed `_environments` block. -/
theorem lookup_scrubEnvs (k : String) (l : List (String × List (String × Override))) :
    List.lookup k (scrubEnvs l) = (List.lookup k l).map scrubFieldOverrides := by
  induction l with
  | nil => rfl
  | cons q l ih =>
    obtain ⟨a, b⟩ := q
    simp only [scrubEnvs, List.map_cons, List.lookup] at ih ⊢
    cases h : k == a <;> simp [h, ih]

/-- Lookup in a scrubbed override block. -/
theorem lookup_scrubFieldOverrides (k : String) (l : List (String × Override)) :
    List.lookup k (scrubFieldOverrides l) = (List.lookup k l).map scrubValidate := by
  induction l with
  | nil => rfl
  | cons q l ih =>
    obtain ⟨a, b⟩ := q
    simp only [scrubFieldOverrides, List.map_cons, List.lookup] at ih ⊢
    cases h : k == a <;> simp [h, ih]

/-- Processing a field under an override with its raw `validate` key
removed is identical to processing it under the original override: the
engine never reads that key. -/
theorem processField_scrub (env : List (String × String)) (o : Override) (n : String)
    (f : CompiledField) :
    processField env (some (scrubValidate o)) n f = processField env (some o) n f := rfl

/-- C10: an environment override supplying a raw `validate` key has no
effect on any validation outcome: scrubbing every `validate` key out of
the `_environments` block leaves the result of every validation call
unchanged, because the engine consults only the compiled `validator`
of the field (built by `defineSchema` at compile time) and never reads
the merged raw `validate` property. -/
theorem c10_override_validate_inert (cs : CompiledSchemaWE) (env : List (String × String))
    (environment : Option String) :
    validateEnv { schema := cs.schema, environments := scrubEnvs cs.environments } env environment =
      validateEnv cs env environment := by
  have hov : lookupOverrides
        { schema := cs.schema, environments := scrubEnvs cs.environments } environment =
      scrubFieldOverrides (lookupOverrides cs environment) := by
    cases environment with
    | none => rfl
    | some e =>
      simp only [lookupOverrides]
      by_cases he : e = ""
      · simp [he, scrubFieldOverrides]
      · simp only [he, ite_false, if_neg]
        rw [lookup_scrubEnvs]
        cases List.lookup e cs.environments <;> simp [scrubFieldOverrides]
  have hfold : ∀ acc : List VError × List (String × Value),
      cs.schema.foldl
        (validateStep env (scrubFieldOverrides (lookupOverrides cs environment))) acc =
      cs.schema.foldl (validateStep env (lookupOverrides cs environment)) acc := by
    intro acc
    apply List.foldl_ext
    intro a p hp
    unfold validateStep
    rw [lookup_scrubFieldOverrides]
    cases h : List.lookup p.1 (lookupOverrides cs environment) with
    | none => rfl
    | some o =>
      simp only [Option.map_some']
      rw [processField_scrub]
  simp only [validateEnv, hov, hfold]

end EnvGuard


